import Mathlib

/-!
Verification of the BaseCRM `HttpClient` (basecrm/http_client.py): a shallow
embedding of the envelope encoding/decoding, header and URL construction, and
the status-code-to-error classification, together with theorems settling the
specification's claims about them.

The HTTP transport (the `requests` library) is modelled as an explicit function
from the outbound request to the response the server produced; JSON values are
a first-order inductive; `resp.json()` is modelled by an `Option Json` field of
the response (`none` when the body is not valid JSON); exceptions raised by the
client are modelled as an explicit result constructor.
-/

namespace Basecrm

/-- A JSON value, as produced by Python's `json` module on API bodies
(numbers restricted to integers; the claims never exercise floats). -/
inductive Json where
  | null : Json
  | bool (b : Bool) : Json
  | num (n : Int) : Json
  | str (s : String) : Json
  | arr (xs : List Json) : Json
  | obj (kvs : List (String × Json)) : Json

/-- Python dict indexing `j[k]` combined with the membership test `k in j`:
the value at key `k` when `j` is an object holding `k`, `none` otherwise
(a `none` on the indexing side corresponds to a raised `KeyError`). -/
def Json.get (j : Json) (k : String) : Option Json :=
  match j with
  | .obj kvs => List.lookup k kvs
  | _ => none

/-- JSON string escaping for the characters the client's bodies can contain,
as `json.dumps` performs it. -/
def escapeChar (c : Char) : String :=
  if c = '"' then "\\\""
  else if c = '\\' then "\\\\"
  else if c = '\n' then "\\n"
  else if c = '\r' then "\\r"
  else if c = '\t' then "\\t"
  else Char.toString c

/-- Escape every character of a string for JSON output. -/
def escapeString (s : String) : String :=
  String.join (s.toList.map escapeChar)

mutual

/-- Python's `json.dumps` with its default separators: item separator
comma-space, key separator colon-space. -/
def Json.dumps : Json → String
  | .null => "null"
  | .bool true => "true"
  | .bool false => "false"
  | .num n => toString n
  | .str s => "\"" ++ escapeString s ++ "\""
  | .arr xs => "[" ++ dumpsArray xs ++ "]"
  | .obj kvs => "\x7b" ++ dumpsObject kvs ++ "\x7d"

/-- Serialize array elements joined by the default item separator. -/
def dumpsArray : List Json → String
  | [] => ""
  | [x] => Json.dumps x
  | x :: y :: xs => Json.dumps x ++ ", " ++ dumpsArray (y :: xs)

/-- Serialize object members joined by the default separators. -/
def dumpsObject : List (String × Json) → String
  | [] => ""
  | [(k, v)] => "\"" ++ escapeString k ++ "\": " ++ Json.dumps v
  | (k, v) :: p :: kvs =>
      "\"" ++ escapeString k ++ "\": " ++ Json.dumps v ++ ", " ++ dumpsObject (p :: kvs)

end

/-- `HttpClient.wrap_envelope`: outbound bodies are wrapped as an object with
the single key `data`. -/
def wrap_envelope (body : Json) : Json :=
  Json.obj [("data", body)]

/-- The list comprehension over `body['items']`: each item's `data` field in
input order, `none` as soon as some item lacks the key (a raised KeyError). -/
def collectData : List Json → Option (List Json)
  | [] => some []
  | item :: rest =>
      match item.get "data", collectData rest with
      | some d, some ds => some (d :: ds)
      | _, _ => none

/-- `HttpClient.unwrap_envelope`: when the decoded body has an `items` key,
the ordered list of each item's `data` field; otherwise the body's `data`
field.  `none` models the exception a failed dict lookup (or iterating a
non-array `items` value) raises; `bunchify` only changes the runtime type of
its argument, not its value, so it is the identity here. -/
def unwrap_envelope (body : Json) : Option Json :=
  match body.get "items" with
  | some (Json.arr items) => (collectData items).map Json.arr
  | some _ => none
  | none => body.get "data"

/-- `HttpClient.API_VERSION`. -/
def API_VERSION : String := "/v2"

/-- `basecrm.Configuration`, as the fields `HttpClient` reads. -/
structure Configuration where
  base_url : String
  access_token : String
  user_agent : String
  timeout : Nat
  verify_ssl : Bool
  verbose : Bool

/-- The single HTTP call `request` hands to `requests.request`: method, full
URL, query parameters, headers in insertion order, and the serialized body
(`none` when no body was given, so nothing is sent). -/
structure OutboundRequest where
  method : String
  url : String
  params : Option (List (String × String))
  headers : List (String × String)
  data : Option String

/-- The outbound half of `HttpClient.request`: URL concatenation, the header
dict in insertion order, and envelope wrapping plus JSON encoding of the body
when one is present. -/
def buildRequest (config : Configuration) (method : String) (url : String)
    (params : Option (List (String × String))) (body : Option Json) :
    OutboundRequest :=
  let fullUrl := config.base_url ++ API_VERSION ++ url
  let baseHeaders : List (String × String) :=
    [("Accept", "application/json"),
     ("Authorization", "Bearer " ++ config.access_token),
     ("User-Agent", config.user_agent)]
  match body with
  | none => ⟨method, fullUrl, params, baseHeaders, none⟩
  | some b =>
      ⟨method, fullUrl, params,
       baseHeaders ++ [("Content-Type", "application/json")],
       some (Json.dumps (wrap_envelope b))⟩

/-- A transport-level response: status code, headers, the raw body text
(`resp.text` / `resp.content`), and the result of `resp.json()` — `none` when
the body is not valid JSON. -/
structure Response where
  status_code : Nat
  headers : List (String × String)
  text : String
  json : Option Json

/-- Header lookup on a response, modelling `resp.headers[k]` and
`k in resp.headers`. -/
def getHeader (headers : List (String × String)) (k : String) : Option String :=
  List.lookup k headers

/-- Does the second character list start with the first? -/
def charsStartWith : List Char → List Char → Bool
  | [], _ => true
  | _ :: _, [] => false
  | a :: as, b :: bs => a == b && charsStartWith as bs

/-- Does the first character list occur contiguously in the second? -/
def charsContain (sub : List Char) : List Char → Bool
  | [] => charsStartWith sub []
  | b :: bs => charsStartWith sub (b :: bs) || charsContain sub bs

/-- Python's substring test `sub in s`. -/
def str_contains (s sub : String) : Bool :=
  charsContain sub.toList s.toList

/-- Modelled from the spec: the typed error classes `ResourceError`,
`RateLimitError`, `RequestError` and `ServerError` live in `basecrm/errors.py`,
which is not part of the embedded source; per the spec an error object carries
the HTTP status code and the decoded error payload from the server when
available, and `RateLimitError` carries nothing.  The bare Python `Exception`
raised by `handle_error_response` is `exception` with its message string. -/
inductive HttpError where
  | resourceError (status : Nat) (errors : Json)
  | rateLimitError
  | requestError (status : Nat) (errors : Json)
  | serverError (status : Nat) (errors : Json)
  | exception (msg : String)

/-- `HttpClient.handle_error_response`: try to JSON-decode the body (a bare
`except:` turns any failure into the generic unknown-error exception carrying
status and raw text), then classify by status code. -/
def handle_error_response (resp : Response) : HttpError :=
  match resp.json with
  | none =>
      HttpError.exception
        ("Unknown HTTP error response. Json expected. HTTP response code="
          ++ toString resp.status_code
          ++ ". HTTP response body=" ++ resp.text)
  | some errors =>
      let resp_code := resp.status_code
      if resp_code = 422 then HttpError.resourceError resp_code errors
      else if resp_code = 429 then HttpError.rateLimitError
      else if 400 ≤ resp_code ∧ resp_code < 500 then
        HttpError.requestError resp_code errors
      else if 500 ≤ resp_code ∧ resp_code < 600 then
        HttpError.serverError resp_code errors
      else HttpError.exception "Unknown HTTP error response"

/-- The decoded body of a successful response: either the unwrapped JSON value
or the raw body when the content type is not JSON. -/
inductive RespBody where
  | json (j : Json)
  | raw (text : String)

/-- What a call to `HttpClient.request` does: return the
`(status, headers, body)` tuple, raise one of the typed or generic HTTP errors,
raise a JSON decode error (2xx JSON content type but unparseable body), or
raise a lookup error (`KeyError`/`TypeError` from `unwrap_envelope`). -/
inductive RequestResult where
  | ok (status : Nat) (headers : List (String × String)) (body : RespBody)
  | httpError (e : HttpError)
  | decodeError
  | lookupError

/-- `HttpClient.request`: build the outbound request, issue exactly one
transport call on it, then either classify the error (status outside
[200, 300)) or decode the body — JSON content types get parsed and
envelope-unwrapped, everything else is returned raw. -/
def request (transport : OutboundRequest → Response) (config : Configuration)
    (method : String) (url : String)
    (params : Option (List (String × String))) (body : Option Json) :
    RequestResult :=
  let resp := transport (buildRequest config method url params body)
  if ¬ (200 ≤ resp.status_code ∧ resp.status_code < 300) then
    RequestResult.httpError (handle_error_response resp)
  else
    match getHeader resp.headers "Content-Type" with
    | some ct =>
        if str_contains ct "json" then
          match resp.json with
          | none => RequestResult.decodeError
          | some parsed =>
              match unwrap_envelope parsed with
              | none => RequestResult.lookupError
              | some decoded =>
                  RequestResult.ok resp.status_code resp.headers
                    (RespBody.json decoded)
        else RequestResult.ok resp.status_code resp.headers (RespBody.raw resp.text)
    | none => RequestResult.ok resp.status_code resp.headers (RespBody.raw resp.text)

theorem collectData_of_forall2 {items ds : List Json}
    (h : List.Forall₂ (fun it d => Json.get it "data" = some d) items ds) :
    collectData items = some ds := by
  induction h with
  | nil => rfl
  | cons hd _ ih => simp [collectData, hd, ih]

theorem collectData_none {items : List Json} {it : Json}
    (hmem : it ∈ items) (hnone : Json.get it "data" = none) :
    collectData items = none := by
  induction items with
  | nil => cases hmem
  | cons a as ih =>
    rcases List.mem_cons.mp hmem with h | h
    · subst h
      simp [collectData, hnone]
    · cases hfa : Json.get a "data" <;> simp [collectData, hfa, ih h]

/-- C1: on a decoded success body, if the object has an `items` key holding an
array whose elements pair off in order with the list `ds` by their `data`
fields, unwrapping returns exactly the ordered sequence `ds`; if the object
has no `items` key, unwrapping returns the top-level `data` field. -/
theorem unwrap_envelope_correct (body : Json) (ds : List Json) :
    (Json.get body "items" = none →
        unwrap_envelope body = Json.get body "data") ∧
    (∀ items : List Json, Json.get body "items" = some (Json.arr items) →
        List.Forall₂ (fun it d => Json.get it "data" = some d) items ds →
        unwrap_envelope body = some (Json.arr ds)) := by
  constructor
  · intro h
    unfold unwrap_envelope
    rw [h]
  · intro items hitems hf
    unfold unwrap_envelope
    rw [hitems]
    simp [collectData_of_forall2 hf]

/-- C1 witness: a concrete single-resource body and a concrete two-element
collection body. -/
theorem unwrap_envelope_correct_witness :
    unwrap_envelope (Json.obj [("data", Json.num 7)]) = some (Json.num 7) ∧
    unwrap_envelope
        (Json.obj [("items",
          Json.arr [Json.obj [("data", Json.num 1)],
                    Json.obj [("data", Json.str "a")]])])
      = some (Json.arr [Json.num 1, Json.str "a"]) := by
  constructor
  · exact Eq.trans
      ((unwrap_envelope_correct (Json.obj [("data", Json.num 7)]) []).1 rfl) rfl
  · exact (unwrap_envelope_correct _ [Json.num 1, Json.str "a"]).2 _ rfl
      (List.Forall₂.cons rfl (List.Forall₂.cons rfl List.Forall₂.nil))

/-- C2: when a body `b` is supplied, the payload handed to the transport is
exactly the JSON encoding of the one-key object with key `data` and value `b`;
when no body is supplied, no body is serialized or sent. -/
theorem request_body_serialization (config : Configuration)
    (method url : String) (params : Option (List (String × String)))
    (b : Json) :
    (buildRequest config method url params (some b)).data
        = some ("\x7b\"data\": " ++ Json.dumps b ++ "\x7d") ∧
    (buildRequest config method url params none).data = none :=
  ⟨rfl, rfl⟩

/-- C7: the outbound URL of every request is the configured base URL, then the
fixed version segment "/v2" (the value of API_VERSION), then the sub-resource
path. -/
theorem request_url_construction (config : Configuration)
    (method url : String) (params : Option (List (String × String)))
    (body : Option Json) :
    (buildRequest config method url params body).url
        = config.base_url ++ "/v2" ++ url ∧ API_VERSION = "/v2" := by
  refine ⟨?_, rfl⟩
  cases body <;> rfl

/-- C8: every outbound request carries exactly Accept, Authorization and
User-Agent (in that order), with Content-Type appended precisely when a body
is present. -/
theorem request_headers (config : Configuration) (method url : String)
    (params : Option (List (String × String))) (b : Json) :
    (buildRequest config method url params none).headers
        = [("Accept", "application/json"),
           ("Authorization", "Bearer " ++ config.access_token),
           ("User-Agent", config.user_agent)] ∧
    (buildRequest config method url params (some b)).headers
        = [("Accept", "application/json"),
           ("Authorization", "Bearer " ++ config.access_token),
           ("User-Agent", config.user_agent),
           ("Content-Type", "application/json")] :=
  ⟨rfl, rfl⟩

/-- C9: the envelope round-trips in the single-resource shape — unwrapping a
wrapped value returns the value, for every JSON value. -/
theorem unwrap_wrap_roundtrip (x : Json) :
    unwrap_envelope (wrap_envelope x) = some x := rfl

/-- A concrete configuration used by the concrete-input theorems. -/
def cfgW : Configuration := ⟨"https://api.getbase.com", "tok", "agent", 30, true, false⟩

/-- A concrete parsed error payload used by the concrete-input theorems. -/
def errsW : Json := Json.obj [("errors", Json.arr [Json.str "invalid"])]

/-- C3: for every non-2xx response whose body parses as JSON, the request
fails with the one typed error determined by the status code: the resource
error carrying 422 and the parsed errors at 422, the rate limit error at 429,
the request error carrying status and errors on the rest of 400-499, the
server error carrying status and errors on 500-599, and the payload-free
generic exception on every other status. -/
theorem request_error_classification
    (transport : OutboundRequest → Response) (config : Configuration)
    (method url : String) (params : Option (List (String × String)))
    (body : Option Json) (resp : Response) (errs : Json)
    (hresp : transport (buildRequest config method url params body) = resp)
    (hjson : resp.json = some errs)
    (hfail : ¬ (200 ≤ resp.status_code ∧ resp.status_code < 300)) :
    (resp.status_code = 422 →
        request transport config method url params body
          = RequestResult.httpError (HttpError.resourceError 422 errs)) ∧
    (resp.status_code = 429 →
        request transport config method url params body
          = RequestResult.httpError HttpError.rateLimitError) ∧
    (400 ≤ resp.status_code → resp.status_code < 500 →
        resp.status_code ≠ 422 → resp.status_code ≠ 429 →
        request transport config method url params body
          = RequestResult.httpError
              (HttpError.requestError resp.status_code errs)) ∧
    (500 ≤ resp.status_code → resp.status_code < 600 →
        request transport config method url params body
          = RequestResult.httpError
              (HttpError.serverError resp.status_code errs)) ∧
    (resp.status_code < 400 ∨ 600 ≤ resp.status_code →
        request transport config method url params body
          = RequestResult.httpError
              (HttpError.exception "Unknown HTTP error response")) := by
  have hreq : request transport config method url params body
      = RequestResult.httpError (handle_error_response resp) := by
    simp only [request]
    rw [hresp, if_pos hfail]
  refine ⟨?_, ?_, ?_, ?_, ?_⟩
  · intro h
    rw [hreq]
    simp [handle_error_response, hjson, h]
  · intro h
    rw [hreq]
    simp [handle_error_response, hjson, h]
  · intro h1 h2 h3 h4
    rw [hreq]
    simp [handle_error_response, hjson, h1, h2, h3, h4]
  · intro h1 h2
    rw [hreq]
    have h3 : resp.status_code ≠ 422 := by omega
    have h4 : resp.status_code ≠ 429 := by omega
    have h5 : ¬ (400 ≤ resp.status_code ∧ resp.status_code < 500) := by omega
    simp [handle_error_response, hjson, h1, h2, h3, h4, h5]
  · intro h
    rw [hreq]
    have h3 : resp.status_code ≠ 422 := by omega
    have h4 : resp.status_code ≠ 429 := by omega
    have h5 : ¬ (400 ≤ resp.status_code ∧ resp.status_code < 500) := by omega
    have h6 : ¬ (500 ≤ resp.status_code ∧ resp.status_code < 600) := by omega
    simp [handle_error_response, hjson, h3, h4, h5, h6]

/-- C3 witness: a concrete 422 response with a JSON error body yields the
resource error carrying 422 and that body. -/
theorem request_error_classification_witness :
    request (fun _ => ⟨422, [], "", some errsW⟩) cfgW "post" "/deals" none none
      = RequestResult.httpError (HttpError.resourceError 422 errsW) :=
  (request_error_classification (fun _ => ⟨422, [], "", some errsW⟩) cfgW
      "post" "/deals" none none ⟨422, [], "", some errsW⟩ errsW rfl rfl
      (by decide)).1 rfl

/-- C4 counterexample: at status 429 with a body that is not valid JSON, the
request fails with the generic unknown-error exception, not the rate limit
error. -/
theorem rate_limit_nonjson_counterexample :
    request (fun _ => ⟨429, [], "oops", none⟩) cfgW "get" "/deals" none none
      ≠ RequestResult.httpError HttpError.rateLimitError := by
  have e : request (fun _ => ⟨429, [], "oops", none⟩) cfgW "get" "/deals" none none
      = RequestResult.httpError (HttpError.exception
          "Unknown HTTP error response. Json expected. HTTP response code=429. HTTP response body=oops") := rfl
  rw [e]
  intro h
  injection h with h2
  exact HttpError.noConfusion h2

/-- C4 amended: a 429 response whose body parses as JSON fails with the rate
limit error regardless of the parsed content; a 429 response whose body is not
valid JSON instead fails with the generic unknown-error exception carrying the
raw status and text. -/
theorem rate_limit_classification
    (transport : OutboundRequest → Response) (config : Configuration)
    (method url : String) (params : Option (List (String × String)))
    (body : Option Json) (resp : Response)
    (hresp : transport (buildRequest config method url params body) = resp)
    (h429 : resp.status_code = 429) :
    (∀ errs : Json, resp.json = some errs →
        request transport config method url params body
          = RequestResult.httpError HttpError.rateLimitError) ∧
    (resp.json = none →
        request transport config method url params body
          = RequestResult.httpError (HttpError.exception
              ("Unknown HTTP error response. Json expected. HTTP response code="
                ++ toString resp.status_code
                ++ ". HTTP response body=" ++ resp.text))) := by
  have hfail : ¬ (200 ≤ resp.status_code ∧ resp.status_code < 300) := by omega
  have hreq : request transport config method url params body
      = RequestResult.httpError (handle_error_response resp) := by
    simp only [request]
    rw [hresp, if_pos hfail]
  constructor
  · intro errs hjson
    rw [hreq]
    simp [handle_error_response, hjson, h429]
  · intro hjson
    rw [hreq]
    simp [handle_error_response, hjson]

/-- C4 amended witness: a concrete 429 response with a JSON body yields the
rate limit error. -/
theorem rate_limit_classification_witness :
    request (fun _ => ⟨429, [], "", some errsW⟩) cfgW "get" "/deals" none none
      = RequestResult.httpError HttpError.rateLimitError :=
  (rate_limit_classification (fun _ => ⟨429, [], "", some errsW⟩) cfgW "get"
      "/deals" none none ⟨429, [], "", some errsW⟩ rfl rfl).1 errsW rfl

/-- C5: every non-2xx response whose body is not valid JSON fails with the
generic unknown-error exception whose message carries the raw status code and
the raw response text, and with no other error kind. -/
theorem nonjson_error_unknown
    (transport : OutboundRequest → Response) (config : Configuration)
    (method url : String) (params : Option (List (String × String)))
    (body : Option Json) (resp : Response)
    (hresp : transport (buildRequest config method url params body) = resp)
    (hfail : ¬ (200 ≤ resp.status_code ∧ resp.status_code < 300))
    (hjson : resp.json = none) :
    request transport config method url params body
      = RequestResult.httpError (HttpError.exception
          ("Unknown HTTP error response. Json expected. HTTP response code="
            ++ toString resp.status_code
            ++ ". HTTP response body=" ++ resp.text)) := by
  have hreq : request transport config method url params body
      = RequestResult.httpError (handle_error_response resp) := by
    simp only [request]
    rw [hresp, if_pos hfail]
  rw [hreq]
  simp [handle_error_response, hjson]

/-- C5 witness: a concrete 503 response with a non-JSON body yields the
generic exception with the raw status and text in its message. -/
theorem nonjson_error_unknown_witness :
    request (fun _ => ⟨503, [], "bad gateway", none⟩) cfgW "get" "/deals" none none
      = RequestResult.httpError (HttpError.exception
          "Unknown HTTP error response. Json expected. HTTP response code=503. HTTP response body=bad gateway") :=
  Eq.trans
    (nonjson_error_unknown (fun _ => ⟨503, [], "bad gateway", none⟩) cfgW
      "get" "/deals" none none ⟨503, [], "bad gateway", none⟩ rfl (by decide) rfl)
    rfl

/-- C6: on a 2xx response, request returns the (status, headers, body) tuple,
the body JSON-parsed and envelope-unwrapped when the Content-Type header is
present and contains "json", and the raw response body otherwise; on a
non-2xx response request never returns a tuple. -/
theorem request_success_shape
    (transport : OutboundRequest → Response) (config : Configuration)
    (method url : String) (params : Option (List (String × String)))
    (body : Option Json) (resp : Response)
    (hresp : transport (buildRequest config method url params body) = resp) :
    (200 ≤ resp.status_code ∧ resp.status_code < 300 →
      (∀ ct : String, getHeader resp.headers "Content-Type" = some ct →
        str_contains ct "json" = true →
        ∀ parsed decoded : Json, resp.json = some parsed →
          unwrap_envelope parsed = some decoded →
          request transport config method url params body
            = RequestResult.ok resp.status_code resp.headers
                (RespBody.json decoded)) ∧
      (∀ ct : String, getHeader resp.headers "Content-Type" = some ct →
        str_contains ct "json" = false →
        request transport config method url params body
          = RequestResult.ok resp.status_code resp.headers
              (RespBody.raw resp.text)) ∧
      (getHeader resp.headers "Content-Type" = none →
        request transport config method url params body
          = RequestResult.ok resp.status_code resp.headers
              (RespBody.raw resp.text))) ∧
    (¬ (200 ≤ resp.status_code ∧ resp.status_code < 300) →
      ∀ (s : Nat) (hs : List (String × String)) (b : RespBody),
        request transport config method url params body
          ≠ RequestResult.ok s hs b) := by
  constructor
  · intro h2xx
    refine ⟨?_, ?_, ?_⟩
    · intro ct hct hjsonct parsed decoded hparsed hunwrap
      simp only [request]
      rw [hresp, if_neg (not_not_intro h2xx), hct]
      simp [hjsonct, hparsed, hunwrap]
    · intro ct hct hjsonct
      simp only [request]
      rw [hresp, if_neg (not_not_intro h2xx), hct]
      simp [hjsonct]
    · intro hct
      simp only [request]
      rw [hresp, if_neg (not_not_intro h2xx), hct]
  · intro hfail s hs b h
    simp only [request] at h
    rw [hresp, if_pos hfail] at h
    exact RequestResult.noConfusion h

/-- C6 witness: a concrete 200 response with a JSON content type and an
enveloped body decodes to the unwrapped value; the same theorem applied to a
concrete 404 response shows no tuple is returned there. -/
theorem request_success_shape_witness :
    request (fun _ => ⟨200, [("Content-Type", "application/json; charset=utf-8")],
        "", some (Json.obj [("data", Json.num 5)])⟩) cfgW "get" "/deals" none none
      = RequestResult.ok 200 [("Content-Type", "application/json; charset=utf-8")]
          (RespBody.json (Json.num 5)) ∧
    request (fun _ => ⟨404, [], "", some errsW⟩) cfgW "get" "/deals" none none
      ≠ RequestResult.ok 404 [] (RespBody.raw "") := by
  constructor
  · exact ((request_success_shape
        (fun _ => ⟨200, [("Content-Type", "application/json; charset=utf-8")],
          "", some (Json.obj [("data", Json.num 5)])⟩) cfgW "get" "/deals"
        none none
        ⟨200, [("Content-Type", "application/json; charset=utf-8")],
          "", some (Json.obj [("data", Json.num 5)])⟩ rfl).1
      (by decide)).1 "application/json; charset=utf-8" rfl (by decide)
      (Json.obj [("data", Json.num 5)]) (Json.num 5) rfl rfl
  · exact (request_success_shape (fun _ => ⟨404, [], "", some errsW⟩) cfgW
        "get" "/deals" none none ⟨404, [], "", some errsW⟩ rfl).2
      (by decide) 404 [] (RespBody.raw "")

/-- C10: on a 2xx response with a JSON content type whose parsed body does not
follow the envelope convention — an object with neither an items key nor a
data key, or with an items array some element of which lacks a data key — the
request fails with the lookup error instead of returning a tuple. -/
theorem request_envelope_assumption
    (transport : OutboundRequest → Response) (config : Configuration)
    (method url : String) (params : Option (List (String × String)))
    (body : Option Json) (resp : Response) (parsed : Json) (ct : String)
    (hresp : transport (buildRequest config method url params body) = resp)
    (h2xx : 200 ≤ resp.status_code ∧ resp.status_code < 300)
    (hct : getHeader resp.headers "Content-Type" = some ct)
    (hjsonct : str_contains ct "json" = true)
    (hparsed : resp.json = some parsed)
    (hbad : (Json.get parsed "items" = none ∧ Json.get parsed "data" = none) ∨
        (∃ items : List Json, Json.get parsed "items" = some (Json.arr items) ∧
          ∃ it ∈ items, Json.get it "data" = none)) :
    request transport config method url params body
      = RequestResult.lookupError := by
  have hun : unwrap_envelope parsed = none := by
    rcases hbad with ⟨h1, h2⟩ | ⟨items, hitems, it, hmem, hnone⟩
    · have e : unwrap_envelope parsed = Json.get parsed "data" := by
        unfold unwrap_envelope
        rw [h1]
      rw [e, h2]
    · have e : unwrap_envelope parsed = (collectData items).map Json.arr := by
        unfold unwrap_envelope
        rw [hitems]
      rw [e, collectData_none hmem hnone]
      rfl
  simp only [request]
  rw [hresp, if_neg (not_not_intro h2xx), hct]
  simp [hjsonct, hparsed, hun]

/-- C10 witness: a concrete 200 JSON response whose body has neither items nor
data fails with the lookup error. -/
theorem request_envelope_assumption_witness :
    request (fun _ => ⟨200, [("Content-Type", "application/json")], "",
        some (Json.obj [("id", Json.num 1)])⟩) cfgW "get" "/deals" none none
      = RequestResult.lookupError :=
  request_envelope_assumption
    (fun _ => ⟨200, [("Content-Type", "application/json")], "",
      some (Json.obj [("id", Json.num 1)])⟩) cfgW "get" "/deals" none none
    ⟨200, [("Content-Type", "application/json")], "",
      some (Json.obj [("id", Json.num 1)])⟩
    (Json.obj [("id", Json.num 1)]) "application/json" rfl (by decide) rfl
    (by decide) rfl (Or.inl ⟨rfl, rfl⟩)

end Basecrm
